import Mathlib

/-
Verification of the authentication and token-lifecycle core of
ms-365-mcp-server (src/auth.ts) against its natural-language specification.

The TypeScript source is shallowly embedded in Lean:
  - the operation catalog (endpoints.json entries) becomes `EndpointConfig`;
  - the JS `Set<string>` used by scope resolution becomes `Finset String`
    (the spec and the claims only concern membership, not iteration order);
  - the mutable `AuthManager` instance becomes an explicit `ManagerState`
    record threaded through each operation;
  - calls into the MSAL identity-provider collaborator
    (`acquireTokenSilent`, `acquireTokenByDeviceCode`) become oracle
    function parameters returning `Except`;
  - the two-tier credential store (keytar vault plus fallback file) becomes
    four `Option String` fields of the state, with a boolean oracle saying
    whether the vault operation succeeds;
  - JavaScript truthiness tests on nullable strings and numbers are made
    explicit (`jsTruthyStr`, `jsTruthyInt`).
-/

-- ## Operation catalog and scope resolution (auth.ts lines 9-78)

/-- An entry of the declarative operation catalog (`EndpointConfig`,
auth.ts lines 9-15).  `scopes` and `requiresWorkAccount` are optional
fields in the source. -/
structure EndpointConfig where
  pathPattern : String
  method : String
  toolName : String
  scopes : Option (List String)
  requiresWorkAccount : Option Bool
  deriving DecidableEq, Repr

/-- The fixed privilege-collapsing table (`SCOPE_HIERARCHY`, auth.ts
lines 45-51): each elevated scope is mapped to the baseline scopes it
subsumes.  `Object.entries` iterates in insertion order. -/
def SCOPE_HIERARCHY : List (String × List String) :=
  [("Mail.ReadWrite", ["Mail.Read"]),
   ("Calendars.ReadWrite", ["Calendars.Read"]),
   ("Files.ReadWrite", ["Files.Read"]),
   ("Tasks.ReadWrite", ["Tasks.Read"]),
   ("Contacts.ReadWrite", ["Contacts.Read"])]

/-- One step of the catalog scan (auth.ts lines 56-64): entries flagged
`requiresWorkAccount` are skipped unless `includeWork`; otherwise the
entry's `scopes` array, when present, is unioned into the set.  In JS,
`endpoint.requiresWorkAccount` is truthy only for `true` (hence
`Option.getD false`), and a present array is always truthy. -/
def collectStep (includeWork : Bool) (s : Finset String) (e : EndpointConfig) :
    Finset String :=
  if e.requiresWorkAccount.getD false && !includeWork then s
  else
    match e.scopes with
    | some l => l.foldl (fun s x => insert x s) s
    | none => s

/-- The catalog scan of `buildScopesFromEndpoints` (auth.ts lines 54-64). -/
def collectScopes (endpoints : List EndpointConfig) (includeWork : Bool) :
    Finset String :=
  endpoints.foldl (collectStep includeWork) ∅

/-- One step of the collapsing pass (auth.ts lines 66-71): if every
baseline scope of the table entry is present, delete the baseline scopes
and add the elevated scope. -/
def collapseStep (s : Finset String) (p : String × List String) :
    Finset String :=
  if p.2.all (fun l => decide (l ∈ s)) then
    insert p.1 (p.2.foldl Finset.erase s)
  else s

/-- The collapsing pass over the whole `SCOPE_HIERARCHY` table
(auth.ts lines 66-71). -/
def applyHierarchy (s : Finset String) : Finset String :=
  SCOPE_HIERARCHY.foldl collapseStep s

/-- `buildScopesFromEndpoints` (auth.ts lines 53-74), parameterised by the
catalog (the source reads the catalog from a module-level constant loaded
from endpoints.json; the claims quantify over every catalog). -/
def buildScopesFromEndpoints (endpoints : List EndpointConfig)
    (includeWorkAccountScopes : Bool) : Finset String :=
  applyHierarchy (collectScopes endpoints includeWorkAccountScopes)

/-- `buildAllScopes` (auth.ts lines 76-78). -/
def buildAllScopes (endpoints : List EndpointConfig) : Finset String :=
  buildScopesFromEndpoints endpoints true

-- ## Membership lemmas for the scope-resolution folds

theorem mem_insertFold {x : String} :
    ∀ (l : List String) (s : Finset String),
      x ∈ l.foldl (fun s y => insert y s) s ↔ x ∈ s ∨ x ∈ l := by
  intro l
  induction l with
  | nil => intro s; simp
  | cons a l ih =>
    intro s
    simp [List.foldl, ih (insert a s), Finset.mem_insert]
    tauto

theorem mem_eraseFold {x : String} :
    ∀ (l : List String) (s : Finset String),
      x ∈ l.foldl Finset.erase s ↔ x ∈ s ∧ x ∉ l := by
  intro l
  induction l with
  | nil => intro s; simp
  | cons a l ih =>
    intro s
    simp [List.foldl, ih (s.erase a), Finset.mem_erase]
    tauto

theorem mem_collapseStep {x : String} {s : Finset String}
    {p : String × List String} (h : x ∈ collapseStep s p) :
    x ∈ s ∨ x = p.1 := by
  unfold collapseStep at h
  by_cases hg : p.2.all (fun l => decide (l ∈ s)) = true
  · rw [if_pos hg] at h
    rcases Finset.mem_insert.mp h with h1 | h2
    · exact Or.inr h1
    · exact Or.inl (mem_eraseFold p.2 s |>.mp h2).1
  · rw [if_neg hg] at h
    exact Or.inl h

theorem not_mem_collapseStep {x : String} {s : Finset String}
    {p : String × List String} (hx : x ∉ s) (hne : x ≠ p.1) :
    x ∉ collapseStep s p := by
  intro h
  rcases mem_collapseStep h with h1 | h2
  · exact hx h1
  · exact hne h2

theorem not_mem_collapseFold {x : String} :
    ∀ (ts : List (String × List String)) (s : Finset String),
      x ∉ s → (∀ q ∈ ts, x ≠ q.1) → x ∉ ts.foldl collapseStep s := by
  intro ts
  induction ts with
  | nil => intro s hx _; simpa using hx
  | cons t ts ih =>
    intro s hx hq
    simp only [List.foldl]
    exact ih (collapseStep s t)
      (not_mem_collapseStep hx (hq t (List.mem_cons_self t ts)))
      (fun q hqin => hq q (List.mem_cons_of_mem t hqin))

theorem mem_collapseFold {x : String} :
    ∀ (ts : List (String × List String)) (s : Finset String),
      x ∈ ts.foldl collapseStep s → x ∈ s ∨ ∃ q ∈ ts, x = q.1 := by
  intro ts
  induction ts with
  | nil => intro s h; exact Or.inl (by simpa using h)
  | cons t ts ih =>
    intro s h
    simp only [List.foldl] at h
    rcases ih (collapseStep s t) h with h1 | h2
    · rcases mem_collapseStep h1 with ha | hb
      · exact Or.inl ha
      · exact Or.inr ⟨t, List.mem_cons_self t ts, hb⟩
    · rcases h2 with ⟨q, hqin, hqeq⟩
      exact Or.inr ⟨q, List.mem_cons_of_mem t hqin, hqeq⟩

theorem exists_lower_not_mem_after_step (p : String × List String)
    (s : Finset String) (hne : p.1 ∉ p.2) (hnil : p.2 ≠ []) :
    ∃ l ∈ p.2, l ∉ collapseStep s p := by
  unfold collapseStep
  by_cases hg : p.2.all (fun l => decide (l ∈ s)) = true
  · obtain ⟨l, hl⟩ := List.exists_mem_of_ne_nil p.2 hnil
    refine ⟨l, hl, ?_⟩
    rw [if_pos hg]
    intro hmem
    rcases Finset.mem_insert.mp hmem with h1 | h2
    · exact hne (h1 ▸ hl)
    · exact ((mem_eraseFold p.2 s).mp h2).2 hl
  · rw [List.all_eq_true] at hg
    push_neg at hg
    obtain ⟨l, hl, hls⟩ := hg
    refine ⟨l, hl, ?_⟩
    rw [if_neg ?_]
    · simpa using hls
    · rw [List.all_eq_true]
      push_neg
      exact ⟨l, hl, hls⟩

theorem exists_lower_not_mem_collapseFold :
    ∀ (ts : List (String × List String)) (s : Finset String)
      (p : String × List String),
      p ∈ ts → p.1 ∉ p.2 → p.2 ≠ [] →
      (∀ q ∈ ts, ∀ l ∈ p.2, l ≠ q.1) →
      ∃ l ∈ p.2, l ∉ ts.foldl collapseStep s := by
  intro ts
  induction ts with
  | nil => intro s p hp; exact absurd hp (List.not_mem_nil p)
  | cons t ts ih =>
    intro s p hp hne hnil hlater
    rcases List.mem_cons.mp hp with heq | hmem
    · subst heq
      obtain ⟨l, hl, hlnot⟩ := exists_lower_not_mem_after_step p s hne hnil
      refine ⟨l, hl, ?_⟩
      simp only [List.foldl]
      exact not_mem_collapseFold ts (collapseStep s p) hlnot
        (fun q hq => hlater q (List.mem_cons_of_mem p hq) l hl)
    · obtain ⟨l, hl, hlnot⟩ := ih (collapseStep s t) p hmem hne hnil
        (fun q hq => hlater q (List.mem_cons_of_mem t hq))
      exact ⟨l, hl, by simpa only [List.foldl] using hlnot⟩

-- ## Claim C3: the collapsing invariant

/-- Claim C3: for every operation catalog and every value of the
elevated-tier inclusion flag, the scope set returned by
`buildScopesFromEndpoints` never simultaneously contains an elevated
scope of the collapsing table and all of the baseline scopes that
elevated scope is declared to subsume. -/
theorem buildScopes_never_elevated_with_all_baselines
    (endpoints : List EndpointConfig) (includeWorkAccountScopes : Bool)
    (p : String × List String) (hp : p ∈ SCOPE_HIERARCHY) :
    ¬ (p.1 ∈ buildScopesFromEndpoints endpoints includeWorkAccountScopes ∧
       ∀ l ∈ p.2, l ∈ buildScopesFromEndpoints endpoints includeWorkAccountScopes) := by
  have hside : ∀ q ∈ SCOPE_HIERARCHY,
      q.1 ∉ q.2 ∧ q.2 ≠ [] ∧ ∀ r ∈ SCOPE_HIERARCHY, ∀ l ∈ q.2, l ≠ r.1 := by
    decide
  obtain ⟨hne, hnil, hlater⟩ := hside p hp
  obtain ⟨l, hl, hlnot⟩ := exists_lower_not_mem_collapseFold SCOPE_HIERARCHY
    (collectScopes endpoints includeWorkAccountScopes) p hp hne hnil hlater
  rintro ⟨-, hall⟩
  exact hlnot (hall l hl)

/-- A two-entry demonstration catalog used to exercise the scope claims on
concrete input. -/
def demoCatalog : List EndpointConfig :=
  [{ pathPattern := "/me/messages", method := "get", toolName := "list-mail-messages",
     scopes := some ["Mail.Read"], requiresWorkAccount := none },
   { pathPattern := "/me/messages", method := "post", toolName := "create-draft-email",
     scopes := some ["Mail.ReadWrite"], requiresWorkAccount := none }]

/-- Witness for C3 at a concrete catalog and a concrete table entry. -/
theorem buildScopes_never_elevated_with_all_baselines_witness :
    ¬ (("Mail.ReadWrite", ["Mail.Read"]).1 ∈ buildScopesFromEndpoints demoCatalog false ∧
       ∀ l ∈ ("Mail.ReadWrite", ["Mail.Read"]).2,
         l ∈ buildScopesFromEndpoints demoCatalog false) :=
  buildScopes_never_elevated_with_all_baselines demoCatalog false
    ("Mail.ReadWrite", ["Mail.Read"]) (by decide)

-- ## Claim C4: what buildScopes(false) excludes

/-- A catalog on which the literal claim C4 fails: the scope
"Mail.ReadWrite" appears only on the elevated-tier entry, yet the
collapsing pass puts it into `buildScopesFromEndpoints _ false` because
its baseline scope "Mail.Read" is present from a non-elevated entry. -/
def elevatedOnlyCatalog : List EndpointConfig :=
  [{ pathPattern := "/me/messages", method := "get", toolName := "list-mail-messages",
     scopes := some ["Mail.Read"], requiresWorkAccount := none },
   { pathPattern := "/admin/thing", method := "get", toolName := "admin-thing",
     scopes := some ["Mail.ReadWrite"], requiresWorkAccount := some true }]

/-- Counterexample to C4 as stated: "Mail.ReadWrite" appears only on
catalog entries flagged as requiring the elevated account tier, yet it is
a member of the set returned by `buildScopesFromEndpoints` with the flag
off. -/
theorem buildScopes_false_elevated_only_counterexample :
    ("Mail.ReadWrite" ∈ buildScopesFromEndpoints elevatedOnlyCatalog false) ∧
    (∀ e ∈ elevatedOnlyCatalog,
      "Mail.ReadWrite" ∈ e.scopes.getD [] → e.requiresWorkAccount = some true) := by
  decide

theorem mem_collectFold {x : String} (inc : Bool) :
    ∀ (endpoints : List EndpointConfig) (s : Finset String),
      x ∈ endpoints.foldl (collectStep inc) s →
      x ∈ s ∨ ∃ e ∈ endpoints,
        x ∈ e.scopes.getD [] ∧ (e.requiresWorkAccount.getD false && !inc) = false := by
  intro endpoints
  induction endpoints with
  | nil => intro s h; exact Or.inl (by simpa using h)
  | cons e es ih =>
    intro s h
    simp only [List.foldl] at h
    rcases ih (collectStep inc s e) h with h1 | h2
    · unfold collectStep at h1
      by_cases hg : (e.requiresWorkAccount.getD false && !inc) = true
      · rw [if_pos hg] at h1
        exact Or.inl h1
      · rw [if_neg hg] at h1
        rcases he : e.scopes with - | l
        · rw [he] at h1
          exact Or.inl h1
        · rw [he] at h1
          rcases (mem_insertFold l s).mp h1 with hs | hx
          · exact Or.inl hs
          · refine Or.inr ⟨e, List.mem_cons_self e es, ?_, by simpa using hg⟩
            simpa [he] using hx
    · rcases h2 with ⟨e2, he2, hx2, hg2⟩
      exact Or.inr ⟨e2, List.mem_cons_of_mem e he2, hx2, hg2⟩

/-- Claim C4, amended: `buildScopesFromEndpoints _ false` excludes every
scope that appears only on catalog entries flagged as requiring the
elevated account tier, provided that scope is not itself one of the
elevated scopes of the collapsing table (those can be introduced by the
collapsing pass whenever all their baseline scopes are present). -/
theorem buildScopes_false_excludes_elevated_only
    (endpoints : List EndpointConfig) (x : String)
    (honly : ∀ e ∈ endpoints, x ∈ e.scopes.getD [] →
      e.requiresWorkAccount.getD false = true)
    (hnothigher : ∀ q ∈ SCOPE_HIERARCHY, x ≠ q.1) :
    x ∉ buildScopesFromEndpoints endpoints false := by
  intro hmem
  unfold buildScopesFromEndpoints applyHierarchy at hmem
  rcases mem_collapseFold SCOPE_HIERARCHY _ hmem with hcollect | ⟨q, hq, hxq⟩
  · unfold collectScopes at hcollect
    rcases mem_collectFold false endpoints ∅ hcollect with habs | ⟨e, he, hxe, hge⟩
    · simp at habs
    · have := honly e he hxe
      simp [this] at hge
  · exact hnothigher q hq hxq

/-- Witness for the amended C4: the scope "Reports.Read.All" appears only
on an elevated-tier entry and is not a collapsing-table elevated scope, so
it is excluded from `buildScopesFromEndpoints _ false`. -/
theorem buildScopes_false_excludes_elevated_only_witness :
    "Reports.Read.All" ∉ buildScopesFromEndpoints
      [{ pathPattern := "/reports", method := "get", toolName := "get-reports",
         scopes := some ["Reports.Read.All"], requiresWorkAccount := some true }] false :=
  buildScopes_false_excludes_elevated_only _ "Reports.Read.All"
    (by decide) (by decide)

-- ## The AuthManager state and its collaborators (auth.ts lines 89-557)

/-- An MSAL account, referenced by the core only through its stable
provider-issued `homeAccountId` (auth.ts uses `AccountInfo` from
msal-node). -/
structure AccountInfo where
  homeAccountId : String
  username : String
  deriving DecidableEq, Repr

/-- The result of a successful `msalApp.acquireTokenSilent` call:
an access token plus an optional expiry instant (`expiresOn` is a
nullable Date; `getTime()` is modelled as an integer). -/
structure SilentResult where
  accessToken : String
  expiresOn : Option Int
  deriving DecidableEq, Repr

/-- The (nullable) result of a successful
`msalApp.acquireTokenByDeviceCode` call. -/
structure DeviceCodeResult where
  accessToken : String
  expiresOn : Option Int
  account : Option AccountInfo
  deriving DecidableEq, Repr

/-- The mutable fields of the `AuthManager` instance (auth.ts lines
90-97 and 107-113) together with the external shared state it touches:
the MSAL in-memory account cache and serialized cache blob, the keytar
vault entries and the fallback plaintext files for the two logical
persisted records. -/
structure ManagerState where
  scopes : Finset String
  accessToken : Option String
  tokenExpiry : Option Int
  oauthToken : Option String
  isOAuthMode : Bool
  selectedAccountId : Option String
  msalAccounts : List AccountInfo
  msalCacheBlob : String
  vaultTokenCache : Option String
  vaultSelectedAccount : Option String
  fileTokenCache : Option String
  fileSelectedAccount : Option String
  deriving DecidableEq

/-- JavaScript truthiness of a nullable string: `null` and `""` are
falsy. -/
def jsTruthyStr (o : Option String) : Bool :=
  match o with
  | none => false
  | some s => !(s == "")

/-- JavaScript truthiness of a nullable number: `null` and `0` are
falsy. -/
def jsTruthyInt (o : Option Int) : Bool :=
  match o with
  | none => false
  | some n => !(n == 0)

-- ## Credential persistence (auth.ts lines 175-209)

/-- Models the expression `fs.writeFileSync(path, data)` at auth.ts
lines 186 and 204.  The module imports only `existsSync` and
`readFileSync` from the fs module (line 5); no binding named `fs` exists
in scope, so evaluating `fs.writeFileSync` throws a ReferenceError at
runtime instead of writing the file.  The argument is the file's current
content, which a working write would replace with `some data`. -/
def fsWriteFileSync (_data : String) (_current : Option String) :
    Except String (Option String) :=
  .error "ReferenceError: fs is not defined"

/-- Models `fs.existsSync(path)` at auth.ts lines 383 and 387; like
`fs.writeFileSync` above it throws a ReferenceError because `fs` is not
a binding in the module. -/
def fsExistsSync (_file : Option String) : Except String Bool :=
  .error "ReferenceError: fs is not defined"

/-- `AuthManager.saveTokenCache` (auth.ts lines 175-191), with a boolean
oracle saying whether the keytar vault write succeeds.  On vault failure
the inner catch attempts the fallback-file write, whose ReferenceError is
swallowed by the outer catch; the method itself never raises. -/
def saveTokenCache (vaultOk : Bool) (st : ManagerState) : ManagerState :=
  let cacheData := st.msalCacheBlob
  if vaultOk then { st with vaultTokenCache := some cacheData }
  else
    match fsWriteFileSync cacheData st.fileTokenCache with
    | .ok f => { st with fileTokenCache := f }
    | .error _ => st

/-- The bytes written for the selected-account pointer:
`JSON.stringify(\x7b accountId: this.selectedAccountId \x7d)` at auth.ts
line 195 (account ids are assumed to need no JSON escaping). -/
def serializeSelectedAccount (accountId : Option String) : String :=
  match accountId with
  | some s => "\x7b\"accountId\":\"" ++ s ++ "\"\x7d"
  | none => "\x7b\"accountId\":null\x7d"

/-- `AuthManager.saveSelectedAccount` (auth.ts lines 193-209); same
two-tier structure and the same missing-`fs` fallback as
`saveTokenCache`. -/
def saveSelectedAccount (vaultOk : Bool) (st : ManagerState) : ManagerState :=
  let selectedAccountData := serializeSelectedAccount st.selectedAccountId
  if vaultOk then { st with vaultSelectedAccount := some selectedAccountData }
  else
    match fsWriteFileSync selectedAccountData st.fileSelectedAccount with
    | .ok f => { st with fileSelectedAccount := f }
    | .error _ => st

-- ## Account resolution and token acquisition (auth.ts lines 211-307)

/-- `AuthManager.setOAuthToken` (auth.ts lines 211-214). -/
def setOAuthToken (st : ManagerState) (token : String) : ManagerState :=
  { st with oauthToken := some token, isOAuthMode := true }

/-- `AuthManager.getCurrentAccount` (auth.ts lines 247-269): with no
accounts return null; with a truthy selected id return the matching
account, logging and falling back to the first account when the pointer
is stale; otherwise return the first account. -/
def getCurrentAccount (st : ManagerState) : Option AccountInfo :=
  let accounts := st.msalAccounts
  if accounts.isEmpty then none
  else if jsTruthyStr st.selectedAccountId then
    match accounts.find? (fun a => a.homeAccountId == st.selectedAccountId.getD "") with
    | some a => some a
    | none => accounts.head?
  else accounts.head?

/-- `AuthManager.getToken` (auth.ts lines 216-245).  `silent` is the
`msalApp.acquireTokenSilent` collaborator, taking the request's account
and scope set; `now` is `Date.now()`.  Errors are the messages of the
`Error` objects the method throws. -/
def getToken (silent : AccountInfo → Finset String → Except String SilentResult)
    (now : Int) (st : ManagerState) (forceRefresh : Bool) :
    Except String (String × ManagerState) :=
  if st.isOAuthMode && jsTruthyStr st.oauthToken then
    .ok (st.oauthToken.getD "", st)
  else if jsTruthyStr st.accessToken && jsTruthyInt st.tokenExpiry
      && decide (st.tokenExpiry.getD 0 > now) && !forceRefresh then
    .ok (st.accessToken.getD "", st)
  else
    match getCurrentAccount st with
    | some currentAccount =>
      match silent currentAccount st.scopes with
      | .ok response =>
        .ok (response.accessToken,
          { st with accessToken := some response.accessToken,
                    tokenExpiry := response.expiresOn })
      | .error _ => .error "Silent token acquisition failed"
    | none => .error "No valid token found"

/-- `AuthManager.acquireTokenByDeviceCode` (auth.ts lines 271-307).
`dc` is the `msalApp.acquireTokenByDeviceCode` collaborator (its result
is nullable).  On success the token and expiry are cached
(`response?.accessToken || null` maps an empty token to null), the newly
authenticated account is auto-selected only when no account id is
currently selected (truthiness test on the id), and the token cache is
persisted.  On failure the error is logged and rethrown with no state
change. -/
def acquireTokenByDeviceCode (dc : Except String (Option DeviceCodeResult))
    (vaultOk : Bool) (st : ManagerState) :
    Except String (Option String) × ManagerState :=
  match dc with
  | .error e => (.error e, st)
  | .ok response =>
    let newToken : Option String :=
      match response with
      | some r => if r.accessToken == "" then none else some r.accessToken
      | none => none
    let newExpiry : Option Int :=
      match response with
      | some r => r.expiresOn
      | none => none
    let st1 := { st with accessToken := newToken, tokenExpiry := newExpiry }
    let st2 :=
      if !jsTruthyStr st1.selectedAccountId then
        match response with
        | some r =>
          match r.account with
          | some a =>
            saveSelectedAccount vaultOk
              { st1 with selectedAccountId := some a.homeAccountId }
          | none => st1
        | none => st1
      else st1
    let st3 := saveTokenCache vaultOk st2
    (.ok st3.accessToken, st3)

-- ## Logout (auth.ts lines 366-396)

/-- `AuthManager.logout` (auth.ts lines 366-396): removes every account
from the MSAL cache, clears the in-memory token, expiry and selection,
deletes both vault entries (failures of keytar only logged), then reaches
`fs.existsSync(FALLBACK_PATH)` — which throws a ReferenceError since `fs`
is not bound — and rethrows from its catch block. -/
def logout (keytarOk : Bool) (st : ManagerState) :
    Except String Bool × ManagerState :=
  let st1 := { st with msalAccounts := [], accessToken := none,
                       tokenExpiry := none, selectedAccountId := none }
  let st2 :=
    if keytarOk then
      { st1 with vaultTokenCache := none, vaultSelectedAccount := none }
    else st1
  match fsExistsSync st2.fileTokenCache with
  | .error e => (.error e, st2)
  | .ok exists1 =>
    let st3 := if exists1 then { st2 with fileTokenCache := none } else st2
    match fsExistsSync st3.fileSelectedAccount with
    | .error e => (.error e, st3)
    | .ok exists2 =>
      let st4 :=
        if exists2 then { st3 with fileSelectedAccount := none } else st3
      (.ok true, st4)

-- ## Scope expansion (auth.ts lines 424-469)

/-- `AuthManager.expandToWorkAccountScopes` (auth.ts lines 424-469):
recomputes the full scope set, runs the device-code flow against it, and
on success caches the token and expiry, replaces the working scope set,
sets the selected account whenever the response carries one (no check of
the current selection, unlike `acquireTokenByDeviceCode`), persists, and
returns true; any throw from the device-code call is caught and reported
as false with no state change. -/
def expandToWorkAccountScopes (catalog : List EndpointConfig)
    (dc : Except String (Option DeviceCodeResult)) (vaultOk : Bool)
    (st : ManagerState) : Bool × ManagerState :=
  let allScopes := buildAllScopes catalog
  match dc with
  | .error _ => (false, st)
  | .ok response =>
    let newToken : Option String :=
      match response with
      | some r => if r.accessToken == "" then none else some r.accessToken
      | none => none
    let newExpiry : Option Int :=
      match response with
      | some r => r.expiresOn
      | none => none
    let st1 := { st with accessToken := newToken, tokenExpiry := newExpiry,
                         scopes := allScopes }
    let st2 :=
      match response with
      | some r =>
        match r.account with
        | some a =>
          saveSelectedAccount vaultOk
            { st1 with selectedAccountId := some a.homeAccountId }
        | none => st1
      | none => st1
    let st3 := saveTokenCache vaultOk st2
    (true, st3)

-- ## Multi-account operations (auth.ts lines 472-544)

/-- `AuthManager.listAccounts` (auth.ts lines 472-474). -/
def listAccounts (st : ManagerState) : List AccountInfo :=
  st.msalAccounts

/-- `AuthManager.selectAccount` (auth.ts lines 476-494): unknown id gives
false with no mutation; otherwise the pointer is set and persisted and
the cached token and expiry are cleared. -/
def selectAccount (vaultOk : Bool) (st : ManagerState) (accountId : String) :
    Bool × ManagerState :=
  match st.msalAccounts.find? (fun a => a.homeAccountId == accountId) with
  | none => (false, st)
  | some _ =>
    let st1 := saveSelectedAccount vaultOk
      { st with selectedAccountId := some accountId }
    (true, { st1 with accessToken := none, tokenExpiry := none })

/-- `AuthManager.getTokenForAccount` (auth.ts lines 496-516): unknown id
throws; otherwise a silent acquisition runs for that account and the raw
provider error is rethrown on failure.  Nothing is cached. -/
def getTokenForAccount
    (silent : AccountInfo → Finset String → Except String SilentResult)
    (st : ManagerState) (accountId : String) :
    Except String (String × ManagerState) :=
  match st.msalAccounts.find? (fun a => a.homeAccountId == accountId) with
  | none => .error ("Account with ID " ++ accountId ++ " not found")
  | some account =>
    match silent account st.scopes with
    | .ok response => .ok (response.accessToken, st)
    | .error e => .error e

/-- `AuthManager.removeAccount` (auth.ts lines 518-544): unknown id gives
false with no mutation; otherwise the account is removed from the MSAL
cache (`providerRemoveFails` models a throw of
`getTokenCache().removeAccount`, reported as false), and only when the
removed id equals the stored selection pointer are the pointer and the
cached token cleared and the cleared pointer persisted. -/
def removeAccount (vaultOk : Bool) (providerRemoveFails : Bool)
    (st : ManagerState) (accountId : String) : Bool × ManagerState :=
  match st.msalAccounts.find? (fun a => a.homeAccountId == accountId) with
  | none => (false, st)
  | some _ =>
    if providerRemoveFails then (false, st)
    else
      let st1 := { st with
        msalAccounts := st.msalAccounts.filter
          (fun a => !(a.homeAccountId == accountId)) }
      if st1.selectedAccountId == some accountId then
        let st2 := saveSelectedAccount vaultOk
          { st1 with selectedAccountId := none }
        (true, { st2 with accessToken := none, tokenExpiry := none })
      else (true, st1)

-- ## Concrete accounts, oracles and states used by witnesses

def acctA : AccountInfo := { homeAccountId := "home-a", username := "a@example.com" }

def acctB : AccountInfo := { homeAccountId := "home-b", username := "b@example.com" }

def baseState : ManagerState :=
  { scopes := ∅, accessToken := none, tokenExpiry := none,
    oauthToken := none, isOAuthMode := false, selectedAccountId := none,
    msalAccounts := [], msalCacheBlob := "cache-blob-bytes",
    vaultTokenCache := none, vaultSelectedAccount := none,
    fileTokenCache := none, fileSelectedAccount := none }

def silentFailOracle : AccountInfo → Finset String → Except String SilentResult :=
  fun _ _ => .error "interaction_required"

def silentOkOracle : AccountInfo → Finset String → Except String SilentResult :=
  fun _ _ => .ok { accessToken := "tok", expiresOn := some 99 }

def stOneAccount : ManagerState := { baseState with msalAccounts := [acctA] }

-- ## Claim C1: getToken outside passthrough with no usable cache

/-- Claim C1: for every `getToken` call outside passthrough mode whose
cached-token guard fails, the call fails with the NoAccount error
("No valid token found") when no current account resolves; when an
account resolves and the single silent acquisition fails, the call fails
with the SilentAcquisitionFailed error ("Silent token acquisition
failed") — the embedding contains no retry and no device-code fallback —
and when it succeeds the returned token and its expiry are cached in
memory and the token is returned. -/
theorem getToken_core_flow
    (silent : AccountInfo → Finset String → Except String SilentResult)
    (now : Int) (st : ManagerState) (forceRefresh : Bool)
    (hmode : st.isOAuthMode = false)
    (hcache : (jsTruthyStr st.accessToken && jsTruthyInt st.tokenExpiry
      && decide (st.tokenExpiry.getD 0 > now) && !forceRefresh) = false) :
    (getCurrentAccount st = none →
      getToken silent now st forceRefresh = .error "No valid token found") ∧
    (∀ acc, getCurrentAccount st = some acc →
      (∀ e, silent acc st.scopes = .error e →
        getToken silent now st forceRefresh =
          .error "Silent token acquisition failed") ∧
      (∀ r, silent acc st.scopes = .ok r →
        getToken silent now st forceRefresh =
          .ok (r.accessToken,
            { st with accessToken := some r.accessToken,
                      tokenExpiry := r.expiresOn }))) := by
  refine ⟨fun hnone => ?_, fun acc hacc => ⟨fun e he => ?_, fun r hr => ?_⟩⟩ <;>
    simp [getToken, hmode, hcache, *]

/-- Witness for C1: a single account, an empty cache and a failing
provider produce exactly the SilentAcquisitionFailed error. -/
theorem getToken_core_flow_witness :
    getToken silentFailOracle 0 stOneAccount false =
      .error "Silent token acquisition failed" :=
  ((getToken_core_flow silentFailOracle 0 stOneAccount false rfl rfl).2
    acctA rfl).1 "interaction_required" rfl

-- ## Claim C2: passthrough mode

/-- Claim C2: whenever the broker is in bearer-passthrough mode with an
injected (non-empty, hence JS-truthy) token, `getToken` returns that
token verbatim with the state unchanged, for any `forceRefresh` and any
cached token or expiry; the provider oracle `silent` is universally
quantified and absent from the result, so the provider is never
consulted. -/
theorem getToken_passthrough_returns_injected
    (silent : AccountInfo → Finset String → Except String SilentResult)
    (now : Int) (st : ManagerState) (forceRefresh : Bool) (t : String)
    (hmode : st.isOAuthMode = true) (htok : st.oauthToken = some t)
    (hne : t ≠ "") :
    getToken silent now st forceRefresh = .ok (t, st) := by
  have hb : (t == "") = false := by
    rw [beq_eq_false_iff_ne]
    exact hne
  simp [getToken, jsTruthyStr, hmode, htok, hb]

def stPassthrough : ManagerState :=
  { baseState with isOAuthMode := true, oauthToken := some "env-token",
                   msalAccounts := [acctA], accessToken := some "cached-tok",
                   tokenExpiry := some 999999 }

/-- Witness for C2: with `forceRefresh = true`, a distinct unexpired
cached token and a failing provider, the injected token is still returned
verbatim. -/
theorem getToken_passthrough_returns_injected_witness :
    getToken silentFailOracle 0 stPassthrough true = .ok ("env-token", stPassthrough) :=
  getToken_passthrough_returns_injected silentFailOracle 0 stPassthrough true
    "env-token" rfl rfl (by decide)

-- ## Claim C7: vault save failure and the fallback file

/-- Claim C7 (code bug): when the vault write fails, the fallback write
`fs.writeFileSync` throws a ReferenceError (`fs` is not a binding of the
module), the outer catch swallows it, and the save routines return with
the whole state — in particular both fallback files — unchanged.  No
exception escapes (the functions are total), but the fallback file is
never written, contradicting the claimed identical-bytes fallback. -/
theorem save_vault_failure_writes_no_fallback (st : ManagerState) :
    saveTokenCache false st = st ∧ saveSelectedAccount false st = st :=
  ⟨rfl, rfl⟩

-- ## Claim C8: logout

/-- Claim C8 (code bug): every `logout` call clears the in-memory state
and (when keytar succeeds) the vault entries, but then hits
`fs.existsSync`, which throws a ReferenceError because `fs` is not bound;
the catch block rethrows, so `logout` never returns true and the fallback
files are never cleared.  `getCurrentAccount` afterwards does return
absent, because the MSAL accounts were removed before the throw. -/
theorem logout_fs_reference_error (keytarOk : Bool) (st : ManagerState) :
    (logout keytarOk st).1 = .error "ReferenceError: fs is not defined" ∧
    (logout keytarOk st).2.fileTokenCache = st.fileTokenCache ∧
    (logout keytarOk st).2.fileSelectedAccount = st.fileSelectedAccount ∧
    (logout keytarOk st).2.accessToken = none ∧
    (logout keytarOk st).2.tokenExpiry = none ∧
    (logout keytarOk st).2.selectedAccountId = none ∧
    (logout keytarOk st).2.msalAccounts = [] ∧
    getCurrentAccount (logout keytarOk st).2 = none := by
  cases keytarOk <;> simp [logout, fsExistsSync, getCurrentAccount]

-- ## Claim C9: unknown account id — boolean versus thrown

/-- Claim C9: for an account id not among the listed accounts,
`selectAccount` and `removeAccount` report the unknown account as the
boolean result false with the whole state unchanged, while
`getTokenForAccount` reports the same condition as a thrown failure. -/
theorem unknown_account_bool_vs_thrown
    (vaultOk providerRemoveFails : Bool)
    (silent : AccountInfo → Finset String → Except String SilentResult)
    (st : ManagerState) (accountId : String)
    (hunknown : ∀ a ∈ listAccounts st, a.homeAccountId ≠ accountId) :
    selectAccount vaultOk st accountId = (false, st) ∧
    removeAccount vaultOk providerRemoveFails st accountId = (false, st) ∧
    getTokenForAccount silent st accountId =
      .error ("Account with ID " ++ accountId ++ " not found") := by
  have hfind : st.msalAccounts.find? (fun a => a.homeAccountId == accountId) = none := by
    rw [List.find?_eq_none]
    intro a ha
    simpa using hunknown a ha
  refine ⟨?_, ?_, ?_⟩ <;>
    simp [selectAccount, removeAccount, getTokenForAccount, hfind]

/-- Witness for C9 at a concrete single-account state and a concrete
unknown id. -/
theorem unknown_account_bool_vs_thrown_witness :
    selectAccount true stOneAccount "home-zzz" = (false, stOneAccount) ∧
    removeAccount true false stOneAccount "home-zzz" = (false, stOneAccount) ∧
    getTokenForAccount silentFailOracle stOneAccount "home-zzz" =
      .error ("Account with ID " ++ "home-zzz" ++ " not found") :=
  unknown_account_bool_vs_thrown true false silentFailOracle stOneAccount
    "home-zzz" (by decide)

-- ## Claim C10: getToken never persists

/-- Claim C10: a `getToken` call that returns a token mutates only the
in-memory token and expiry fields: the vault entries, the fallback files,
the selection pointer, the account cache, the working scope set and the
provider cache blob of the resulting state are those of the input state.
(On a thrown failure the embedding returns no state at all, so state is
likewise unchanged.) -/
theorem getToken_no_persistence
    (silent : AccountInfo → Finset String → Except String SilentResult)
    (now : Int) (st : ManagerState) (forceRefresh : Bool)
    (t : String) (st' : ManagerState)
    (h : getToken silent now st forceRefresh = .ok (t, st')) :
    st'.vaultTokenCache = st.vaultTokenCache ∧
    st'.fileTokenCache = st.fileTokenCache ∧
    st'.vaultSelectedAccount = st.vaultSelectedAccount ∧
    st'.fileSelectedAccount = st.fileSelectedAccount ∧
    st'.selectedAccountId = st.selectedAccountId ∧
    st'.msalAccounts = st.msalAccounts ∧
    st'.scopes = st.scopes ∧
    st'.msalCacheBlob = st.msalCacheBlob := by
  unfold getToken at h
  split at h
  · simp only [Except.ok.injEq, Prod.mk.injEq] at h
    obtain ⟨-, rfl⟩ := h
    exact ⟨rfl, rfl, rfl, rfl, rfl, rfl, rfl, rfl⟩
  · split at h
    · simp only [Except.ok.injEq, Prod.mk.injEq] at h
      obtain ⟨-, rfl⟩ := h
      exact ⟨rfl, rfl, rfl, rfl, rfl, rfl, rfl, rfl⟩
    · split at h
      · split at h
        · simp only [Except.ok.injEq, Prod.mk.injEq] at h
          obtain ⟨-, rfl⟩ := h
          exact ⟨rfl, rfl, rfl, rfl, rfl, rfl, rfl, rfl⟩
        · simp at h
      · simp at h

/-- The state after a successful silent acquisition from
`stOneAccount`. -/
def stOneAccountTok : ManagerState :=
  { stOneAccount with accessToken := some "tok", tokenExpiry := some 99 }

/-- Witness for C10: a successful silent acquisition on a single-account
state leaves every persisted field intact. -/
theorem getToken_no_persistence_witness :
    stOneAccountTok.vaultTokenCache = stOneAccount.vaultTokenCache ∧
    stOneAccountTok.fileTokenCache = stOneAccount.fileTokenCache :=
  ⟨(getToken_no_persistence silentOkOracle 0 stOneAccount false "tok"
      stOneAccountTok rfl).1,
   (getToken_no_persistence silentOkOracle 0 stOneAccount false "tok"
      stOneAccountTok rfl).2.1⟩

-- ## Claim C5: token invalidation on selection change and removal

/-- The state obtained from `stOneAccount` by a successful `getToken`
whose owner was resolved through the first-account fallback (no selection
pointer set). -/
def stFallbackOwnerToken : ManagerState :=
  { stOneAccount with accessToken := some "tok", tokenExpiry := some 99 }

/-- Counterexample to C5 as stated: with no selection pointer, the
cached token is acquired for the fallback current account `acctA`
(`getCurrentAccount` resolves it, and `getToken` caches a token for it);
removing that very account then succeeds but leaves the cached token and
expiry in place, because `removeAccount` clears them only when the
removed id equals the stored selection pointer. -/
theorem removeAccount_fallback_owner_counterexample :
    getCurrentAccount stOneAccount = some acctA ∧
    getToken silentOkOracle 0 stOneAccount false =
      .ok ("tok", stFallbackOwnerToken) ∧
    removeAccount true false stFallbackOwnerToken "home-a" =
      (true, { stFallbackOwnerToken with msalAccounts := [] }) ∧
    ({ stFallbackOwnerToken with msalAccounts := [] }).accessToken = some "tok" ∧
    ({ stFallbackOwnerToken with msalAccounts := [] }).tokenExpiry = some 99 := by
  refine ⟨rfl, rfl, ?_, rfl, rfl⟩
  decide

/-- Claim C5, amended: the in-memory token record is cleared whenever
`selectAccount` succeeds, and on `removeAccount` whenever the removed
account id equals the stored selection pointer; a token acquired for the
first-account fallback (stored pointer absent or different) survives the
removal of its account. -/
theorem token_cleared_on_select_and_selected_remove
    (vaultOk providerRemoveFails : Bool) (st : ManagerState)
    (accountId : String) :
    ((selectAccount vaultOk st accountId).1 = true →
      (selectAccount vaultOk st accountId).2.accessToken = none ∧
      (selectAccount vaultOk st accountId).2.tokenExpiry = none) ∧
    ((removeAccount vaultOk providerRemoveFails st accountId).1 = true →
      st.selectedAccountId = some accountId →
      (removeAccount vaultOk providerRemoveFails st accountId).2.accessToken = none ∧
      (removeAccount vaultOk providerRemoveFails st accountId).2.tokenExpiry = none) := by
  constructor
  · intro hsel
    cases hfind : st.msalAccounts.find? (fun a => a.homeAccountId == accountId) with
    | none => simp [selectAccount, hfind] at hsel
    | some a => simp [selectAccount, hfind]
  · intro hrem hself
    cases hfind : st.msalAccounts.find? (fun a => a.homeAccountId == accountId) with
    | none => simp [removeAccount, hfind] at hrem
    | some a =>
      cases providerRemoveFails with
      | true => simp [removeAccount, hfind] at hrem
      | false => simp [removeAccount, hfind, hself]

/-- A selected single-account state holding a cached token. -/
def stSelectedToken : ManagerState :=
  { baseState with msalAccounts := [acctA], selectedAccountId := some "home-a",
                   accessToken := some "tok", tokenExpiry := some 99 }

/-- Witness for the amended C5 at a concrete selected state. -/
theorem token_cleared_on_select_and_selected_remove_witness :
    (selectAccount true stSelectedToken "home-a").2.accessToken = none ∧
    (removeAccount true false stSelectedToken "home-a").2.accessToken = none :=
  ⟨((token_cleared_on_select_and_selected_remove true false stSelectedToken
      "home-a").1 (by decide)).1,
   ((token_cleared_on_select_and_selected_remove true false stSelectedToken
      "home-a").2 (by decide) (by decide)).1⟩

-- ## Claim C6: scope expansion

/-- A state whose stored selection points at an id other than the account
the device-code response authenticates. -/
def stOldSelected : ManagerState :=
  { baseState with msalAccounts := [acctA], selectedAccountId := some "home-old" }

/-- A successful device-code exchange authenticating `acctB`. -/
def dcResultB : Except String (Option DeviceCodeResult) :=
  .ok (some { accessToken := "tok2", expiresOn := some 50, account := some acctB })

/-- Counterexample to C6 as stated: with an account already selected, the
device-code flow of 4.4 (`acquireTokenByDeviceCode`) preserves the
selection, but `expandToWorkAccountScopes` overwrites it with the newly
authenticated account — so the expansion does not update the selected
account "exactly as in the device-code flow". -/
theorem expand_overwrites_selection_counterexample :
    stOldSelected.selectedAccountId = some "home-old" ∧
    (acquireTokenByDeviceCode dcResultB true stOldSelected).2.selectedAccountId =
      some "home-old" ∧
    (expandToWorkAccountScopes [] dcResultB true stOldSelected).2.selectedAccountId =
      some "home-b" := by
  refine ⟨rfl, rfl, rfl⟩

/-- Claim C6, amended: on a successful device-code exchange,
`expandToWorkAccountScopes` returns true, replaces the broker's working
scope set with the full set including the elevated tier, persists the
token cache to the vault when the vault is available, and sets the
selected account to the newly authenticated account whenever the response
carries one — overwriting any existing selection, unlike the device-code
flow of 4.4; when the response carries no account the selection is kept.
On failure it returns false with no mutation at all. -/
theorem expand_success_failure_behavior
    (catalog : List EndpointConfig)
    (dc : Except String (Option DeviceCodeResult)) (vaultOk : Bool)
    (st : ManagerState) :
    (∀ e, dc = .error e →
      expandToWorkAccountScopes catalog dc vaultOk st = (false, st)) ∧
    (∀ r, dc = .ok (some r) →
      (expandToWorkAccountScopes catalog dc vaultOk st).1 = true ∧
      (expandToWorkAccountScopes catalog dc vaultOk st).2.scopes =
        buildAllScopes catalog ∧
      (vaultOk = true →
        (expandToWorkAccountScopes catalog dc vaultOk st).2.vaultTokenCache =
          some st.msalCacheBlob) ∧
      (∀ a, r.account = some a →
        (expandToWorkAccountScopes catalog dc vaultOk st).2.selectedAccountId =
          some a.homeAccountId) ∧
      (r.account = none →
        (expandToWorkAccountScopes catalog dc vaultOk st).2.selectedAccountId =
          st.selectedAccountId)) := by
  constructor
  · intro e he
    rw [he]
    rfl
  · intro r hr
    subst hr
    cases hacc : r.account with
    | none =>
      cases vaultOk <;>
        simp [expandToWorkAccountScopes, saveTokenCache, fsWriteFileSync, hacc]
    | some a =>
      cases vaultOk <;>
        simp [expandToWorkAccountScopes, saveTokenCache, saveSelectedAccount,
          fsWriteFileSync, hacc]

/-- Witness for the amended C6: a failing exchange mutates nothing, and a
successful one installs the full scope set. -/
theorem expand_success_failure_behavior_witness :
    expandToWorkAccountScopes [] (.error "device code expired") true stOldSelected =
      (false, stOldSelected) ∧
    (expandToWorkAccountScopes [] dcResultB true stOldSelected).2.scopes =
      buildAllScopes [] :=
  ⟨(expand_success_failure_behavior [] (.error "device code expired") true
      stOldSelected).1 "device code expired" rfl,
   ((expand_success_failure_behavior [] dcResultB true stOldSelected).2
      { accessToken := "tok2", expiresOn := some 50, account := some acctB }
      rfl).2.1⟩
